import Mathlib

/-!
Verification of the orbital bias-correction engine of the
greenland-glacier-flow repository (directory
src/3_orthocorrect_and_netcdf-package), against its natural-language
specification.

The numpy arrays of the Python source are modelled as lists of optional
field elements: a pixel is `none` when it holds floating-point NaN and
`some x` when it holds the finite value `x`.  Elementwise numpy semantics
(NaN-propagating arithmetic, comparisons that are false on NaN) are encoded
in the pixel operations below.  Floating-point infinities are not modelled:
division by zero yields NaN here, where numpy would produce an infinity; no
property verified in this file depends on that case.  Definitions are kept
generic over a linear ordered field so that they are executable at `ℚ` and
can be instantiated at `ℝ` (with the real arctangent) where the code takes
an arctangent.
-/

namespace GlacierFlow

/-- A numpy floating-point pixel: `none` is NaN, `some x` the finite value x. -/
abbrev Val (α : Type) := Option α

variable {α : Type} [LinearOrderedField α] {β : Type}

/-- Elementwise numpy addition: NaN propagates. -/
def valAdd : Val α → Val α → Val α
  | some a, some b => some (a + b)
  | _, _ => none

/-- Elementwise numpy subtraction: NaN propagates. -/
def valSub : Val α → Val α → Val α
  | some a, some b => some (a - b)
  | _, _ => none

/-- Elementwise numpy division: NaN propagates; division by zero is mapped
to NaN (numpy would give an infinity, a case no verified property uses). -/
def valDiv : Val α → Val α → Val α
  | some a, some b => if b = 0 then none else some (a / b)
  | _, _ => none

/-- Division of a pixel by a finite scalar. -/
def valDivC (v : Val α) (c : α) : Val α := valDiv v (some c)

/-- Addition of a finite scalar to a pixel. -/
def valAddC (v : Val α) (c : α) : Val α := valAdd v (some c)

/-- Subtraction of a finite scalar from a pixel. -/
def valSubC (v : Val α) (c : α) : Val α := valSub v (some c)

/-- Elementwise numpy absolute value: NaN propagates. -/
def valAbs : Val α → Val α := Option.map (fun x => |x|)

/-- numpy elementwise equality: a comparison involving NaN is always False. -/
def npEq : Val α → Val α → Bool
  | some a, some b => decide (a = b)
  | _, _ => false

/-- numpy comparison `v > c` against a finite scalar: False when v is NaN. -/
def npGtC (v : Val α) (c : α) : Bool :=
  match v with
  | some x => decide (c < x)
  | none => false

/-- np.where at one pixel, with an already-evaluated boolean condition. -/
def npWhere (c : Bool) (t e : Val α) : Val α := if c then t else e

omit [LinearOrderedField α] in
theorem npWhere_true (t e : Val α) : npWhere true t e = t := rfl

omit [LinearOrderedField α] in
theorem npWhere_false (t e : Val α) : npWhere false t e = e := rfl

/-!
Array-level stages of correct_velocity
(lib/correct_fields_parts.py, lines 60-228).
-/

/-- load_resampled_array with nodata_values=[0, -9999]
(lib/utility.py lines 157-163): pixels equal to a nodata value become NaN. -/
def loadNodata (v : Val α) : Val α :=
  match v with
  | some x => if x = 0 ∨ x = -9999 then none else some x
  | none => none

/-- Loading a dx/dy raster (correct_fields_parts.py lines 130-133). -/
def loadArr (file : List (Val α)) : List (Val α) := file.map loadNodata

/-- dx[mask == 0] = np.nan (correct_fields_parts.py lines 141-142). -/
def maskArr (a m : List (Val α)) : List (Val α) :=
  List.zipWith (fun v mv => if npEq mv (some 0) then none else v) a m

/-- dx_offset = np.where(dx == np.nan, np.nan, dx_offset)
(correct_fields_parts.py lines 145-146).  The comparison is numpy `==`
against the NaN scalar, not isnan. -/
def offsetMaskArr (dx off : List (Val α)) : List (Val α) :=
  List.zipWith (fun d o => npWhere (npEq d none) none o) dx off

/-- dx_cor = dx + (dx_offset / day_sep) (correct_fields_parts.py lines 149-150). -/
def applyOffsetArr (raw off : List (Val α)) (daySep : α) : List (Val α) :=
  List.zipWith (fun r o => valAdd r (valDivC o daySep)) raw off

/-- The corrected-field flow angle (correct_fields_parts.py lines 171-175):
angle = degrees(arctan(dy_cor / dx_cor)); then np.where(dx > 0, angle,
angle + 180) — note the shift condition reads the RAW loaded dx, not
dx_cor — then np.where(angle > 180, angle - 360, angle).  The degree
arctangent is passed in as `arctanD` so the pipeline stays executable at ℚ;
the program instantiates it with the real arctangent in degrees. -/
def angleArr (arctanD : α → α) (dyCor dxCor dxRaw : List (Val α)) : List (Val α) :=
  let a0 := List.zipWith (fun y x => Option.map arctanD (valDiv y x)) dyCor dxCor
  let a1 := List.zipWith (fun d a => npWhere (npGtC d 0) a (valAddC a 180)) dxRaw a0
  a1.map (fun a => npWhere (npGtC a 180) (valSubC a 360) a)

/-- flow_diff = np.abs(flowdir_ref - angle); np.where(flow_diff > 180,
360 - flow_diff, flow_diff) (correct_fields_parts.py lines 176-177). -/
def flowDiffArr (ref angle : List (Val α)) : List (Val α) :=
  (List.zipWith (fun r a => valAbs (valSub r a)) ref angle).map
    (fun d => npWhere (npGtC d 180) (valSub (some 360) d) d)

/-- dx_cor[(flow_diff > 20) & (icemask_array == 1)] = np.nan
(correct_fields_parts.py line 179). -/
def dirFilterArr (dxCor fd ice : List (Val α)) : List (Val α) :=
  List.zipWith (fun c di => if npGtC di.1 20 && npEq di.2 (some 1) then none else c)
    dxCor (List.zipWith Prod.mk fd ice)

/-- dy_cor[np.isnan(dx_cor)] = np.nan (correct_fields_parts.py line 196). -/
def dySyncArr (dxCorF dyCor : List (Val α)) : List (Val α) :=
  List.zipWith (fun x y => if x.isNone then none else y) dxCorF dyCor

/-- np.count_nonzero: NaN counts as nonzero (a mask array holds no NaN). -/
def countNonzero (a : List (Val α)) : ℕ := a.countP (fun v => !(npEq v (some 0)))

/-- np.count_nonzero(~np.isnan(a)). -/
def countNotNan (a : List (Val α)) : ℕ := a.countP (fun v => v.isSome)

/-- vel_icemasked = np.where(icemask_array == 1, dx_cor, np.nan)
(correct_fields_parts.py line 183). -/
def iceMaskedVel (ice dxCorF : List (Val α)) : List (Val α) :=
  List.zipWith (fun i d => npWhere (npEq i (some 1)) d none) ice dxCorF

/-- The skip condition of the coverage check (correct_fields_parts.py lines
181-188): skip when ice_px_vel_count == 0 or the valid proportion is below
one percent.  (The Python computes the proportion with integer division
into float; a zero ice-pixel count would raise there — every theorem that
uses this keeps the ice-pixel count positive.) -/
def coverageSkip (ice dxCorF : List (Val α)) : Bool :=
  let icePx := countNonzero ice
  let valid := countNotNan (iceMaskedVel ice dxCorF)
  decide (valid = 0) || decide ((valid : α) / (icePx : α) < 1 / 100)

/-- The per-record inputs of correct_velocity that the array pipeline reads.
File contents stand for the rasters already resampled onto the shared grid
(grid alignment is handled by gdal in load_resampled_array and is outside
this model). -/
structure CorrectInput (α : Type) where
  outputExists : Bool
  dxFile : List (Val α)
  dyFile : List (Val α)
  maskFile : Option (List (Val α))
  dxOffset : List (Val α)
  dyOffset : List (Val α)
  flowdirRef : List (Val α)
  icemask : List (Val α)
  daySep : α
deriving DecidableEq

/-- The loaded, nodata-mapped, validity-masked dx array
(correct_fields_parts.py lines 130-142). -/
def loadedDx (inp : CorrectInput α) : List (Val α) :=
  match inp.maskFile with
  | some m => maskArr (loadArr inp.dxFile) m
  | none => loadArr inp.dxFile

/-- The loaded, nodata-mapped, validity-masked dy array. -/
def loadedDy (inp : CorrectInput α) : List (Val α) :=
  match inp.maskFile with
  | some m => maskArr (loadArr inp.dyFile) m
  | none => loadArr inp.dyFile

/-- dx_cor before directional filtering (correct_fields_parts.py line 149). -/
def dxCorOf (inp : CorrectInput α) : List (Val α) :=
  applyOffsetArr (loadedDx inp) (offsetMaskArr (loadedDx inp) inp.dxOffset) inp.daySep

/-- dy_cor before filtering (correct_fields_parts.py line 150); the offset
mask at line 146 tests dx, not dy, which this mirrors. -/
def dyCorOf (inp : CorrectInput α) : List (Val α) :=
  applyOffsetArr (loadedDy inp) (offsetMaskArr (loadedDx inp) inp.dyOffset) inp.daySep

/-- flow_diff for this record (correct_fields_parts.py lines 171-177). -/
def flowDiffOf (arctanD : α → α) (inp : CorrectInput α) : List (Val α) :=
  flowDiffArr inp.flowdirRef (angleArr arctanD (dyCorOf inp) (dxCorOf inp) (loadedDx inp))

/-- dx_cor after the directional filter (correct_fields_parts.py line 179). -/
def filteredDx (arctanD : α → α) (inp : CorrectInput α) : List (Val α) :=
  dirFilterArr (dxCorOf inp) (flowDiffOf arctanD inp) inp.icemask

/-- The rasters a corrected record emits (the magnitude raster is
sqrt(dx_cor^2 + dy_cor^2), derived from these two; metadata and preview
plots are pure by-products — neither is needed by a verified claim). -/
structure CorrectedOutput (α : Type) where
  vx : List (Val α)
  vy : List (Val α)
deriving DecidableEq

/-- correct_velocity (correct_fields_parts.py lines 60-228): `none` means the
record was skipped (existing output, or insufficient ice coverage) and no
output was written; `some` carries the emitted corrected rasters. -/
def correct_velocity (arctanD : α → α) (inp : CorrectInput α) : Option (CorrectedOutput α) :=
  if inp.outputExists then none
  else if coverageSkip inp.icemask (filteredDx arctanD inp) then none
  else some (CorrectedOutput.mk (filteredDx arctanD inp)
    (dySyncArr (filteredDx arctanD inp) (dyCorOf inp)))

/-!
Claim C4 — the day-separation column
(processing_chain/2_get_orbital_average_offset.py, lines 227-230).
-/

/-- day_sep = (datetime_1 - datetime_2) / np.timedelta64(1, "D")
(2_get_orbital_average_offset.py lines 227-230).  Datetimes are modelled in
seconds; one day is 86400 seconds; the pd.to_numeric downcast does not
change the value. -/
def day_sep (datetime1 datetime2 : ℚ) : ℚ := (datetime1 - datetime2) / 86400

/-- C4 counterexample: for a record whose first scene is at second 0 and
whose second scene is ten days later (second 864000), the code computes
day_sep = -10, while the claim (day-separation = date2 - date1) requires
+10. -/
theorem day_sep_sign_counterexample :
    day_sep 0 864000 = -10 ∧ ((864000 : ℚ) - 0) / 86400 = 10 ∧
      day_sep 0 864000 ≠ ((864000 : ℚ) - 0) / 86400 := by
  refine ⟨?_, ?_, ?_⟩ <;> norm_num [day_sep]

/-- C4 (amended): the day-separation attribute equals datetime_1 minus
datetime_2 in signed fractional days — the NEGATION of date2 - date1.  (The
sign convention is applied consistently: OffsetTable multiplies by the same
day_sep it later divides by, so the correction is unaffected.) -/
theorem day_sep_is_date1_minus_date2 (t1 t2 : ℚ) :
    day_sep t1 t2 = -((t2 - t1) / 86400) := by
  unfold day_sep; ring

/-!
Claim C5 — the per-record loop of processing_chain/3_correct_fields.py
(lines 197-225).
-/

/-- Log messages relevant to the verified claims. -/
inductive LogMsg where
  | skippedPair (pair : String) (count thresh : ℕ)
deriving DecidableEq

/-- What the loop body does with one record. -/
inductive RecordStep (α : Type) where
  /-- The record was skipped before correct_velocity was called; no output
  is written for it. -/
  | skippedNoOffset
  /-- correct_velocity is invoked with the dx offset array and with whatever
  the dy dictionary lookup returned (possibly None). -/
  | runCorrect (dxOffset : List (Val α)) (dyOffset : Option (List (Val α)))
deriving DecidableEq

/-- The body of the record loop (3_correct_fields.py lines 197-225): fetch
both offsets with dict.get, skip — without any log call — exactly when the
dx lookup returned None, and otherwise call correct_velocity, passing the
dy lookup result through unchecked.  The second component is the log
output of the body. -/
def recordLoopStep (dxDict dyDict : String → Option (List (Val α))) (pair : String) :
    RecordStep α × List LogMsg :=
  match dxDict pair with
  | none => (RecordStep.skippedNoOffset, [])
  | some dxo => (RecordStep.runCorrect dxo (dyDict pair), [])

/-- The loop over all records: each record is handled independently and
processing always continues to the next record. -/
def recordLoop (dxDict dyDict : String → Option (List (Val α))) (pairs : List String) :
    List (RecordStep α × List LogMsg) :=
  pairs.map (recordLoopStep dxDict dyDict)

/-- C5 counterexample: a record whose orbit pair has a dx offset but no dy
offset is NOT terminated in Skipped-No-Offset — the loop only tests the dx
lookup and proceeds into correct_velocity with a missing dy offset; and when
the dx offset is the one missing, the record is skipped but nothing is
logged, against the claim that the skip is logged. -/
theorem record_skip_dy_missing_counterexample :
    (fun _ : String => (none : Option (List (Val ℚ)))) "R1_R2" = none ∧
    (recordLoopStep (fun _ => some [some 1]) (fun _ => none) "R1_R2").1 =
      RecordStep.runCorrect [some (1 : ℚ)] none ∧
    (recordLoopStep (fun _ => some [some 1]) (fun _ => none) "R1_R2").1 ≠
      (RecordStep.skippedNoOffset : RecordStep ℚ) ∧
    recordLoopStep (fun _ => none) (fun _ => none) "R1_R2" =
      ((RecordStep.skippedNoOffset : RecordStep ℚ), ([] : List LogMsg)) := by
  refine ⟨rfl, rfl, ?_, rfl⟩
  simp [recordLoopStep]

omit [LinearOrderedField α] in
/-- C5 (amended): a record is skipped if and only if its orbit pair has no
dx OffsetField; the skip writes no output and emits no log message, and the
loop continues with the next record; when the dx offset is present the body
proceeds into correct_velocity with whatever the dy lookup returned. -/
theorem record_skip_iff_dx_offset_missing (dxDict dyDict : String → Option (List (Val α)))
    (pair : String) :
    ((recordLoopStep dxDict dyDict pair).1 = RecordStep.skippedNoOffset ↔ dxDict pair = none) ∧
    (recordLoopStep dxDict dyDict pair).2 = [] ∧
    (∀ dxo, dxDict pair = some dxo →
      (recordLoopStep dxDict dyDict pair).1 = RecordStep.runCorrect dxo (dyDict pair)) := by
  refine ⟨?_, ?_, ?_⟩ <;> cases h : dxDict pair <;>
    simp [recordLoopStep, h]

/-- C5 witness: the amended statement applied to concrete offset
dictionaries in which the pair has a dx offset. -/
theorem record_skip_iff_dx_offset_missing_witness :
    ((recordLoopStep (fun _ => some [some (2 : ℚ)]) (fun _ => some [some 3]) "R7_R9").1 =
      RecordStep.skippedNoOffset ↔ (some [some (2 : ℚ)] : Option (List (Val ℚ))) = none) ∧
    (recordLoopStep (fun _ => some [some (2 : ℚ)]) (fun _ => some [some 3]) "R7_R9").1 =
      RecordStep.runCorrect [some (2 : ℚ)] (some [some 3]) := by
  have h := record_skip_iff_dx_offset_missing
    (fun _ => some [some (2 : ℚ)]) (fun _ => some [some 3]) "R7_R9"
  exact ⟨h.1, h.2.2 [some 2] rfl⟩

/-!
Claim C6 — the directional filter (correct_fields_parts.py lines 171-179).
-/

/-- C6: the angular difference between reference and corrected flow
direction is the absolute difference, wrapped so that differences above
180 degrees become 360 minus the difference — in particular 179 against
-179 yields 2, not 358 — and the filter sets corrected dx to NaN at
exactly the pixels over ice whose wrapped difference exceeds 20 degrees,
leaving every other pixel unchanged. -/
theorem directional_filter_wrap_and_mask :
    (flowDiffArr [some (179 : α)] [some (-179)] = [some 2]) ∧
    (∀ ref ang : List (Val α), ∀ i : ℕ, ∀ r a : α,
      ref[i]? = some (some r) → ang[i]? = some (some a) →
      (flowDiffArr ref ang)[i]? =
        some (some (if 180 < |r - a| then 360 - |r - a| else |r - a|))) ∧
    (∀ dxCor fd ice : List (Val α), ∀ i : ℕ, ∀ d c iv,
      dxCor[i]? = some c → fd[i]? = some d → ice[i]? = some iv →
      ((∀ x : α, d = some x → 20 < x → iv = some 1 →
          (dirFilterArr dxCor fd ice)[i]? = some none) ∧
        (∀ x : α, d = some x → x ≤ 20 → (dirFilterArr dxCor fd ice)[i]? = some c) ∧
        (d = none → (dirFilterArr dxCor fd ice)[i]? = some c) ∧
        (iv ≠ some 1 → (dirFilterArr dxCor fd ice)[i]? = some c))) := by
  refine ⟨?_, ?_, ?_⟩
  · simp only [flowDiffArr, List.zipWith, valAbs, valSub, List.map]
    norm_num [npWhere, npGtC, abs_of_pos]
  · intro ref ang i r a href hang
    simp only [flowDiffArr, List.getElem?_map, List.getElem?_zipWith, href, hang]
    simp only [valAbs, valSub, Option.map_some]
    by_cases h : 180 < |r - a| <;>
      simp [npWhere, npGtC, h]
  · intro dxCor fd ice i d c iv hc hd hiv
    have hout : (dirFilterArr dxCor fd ice)[i]? =
        some (if npGtC d 20 && npEq iv (some 1) then none else c) := by
      simp only [dirFilterArr, List.getElem?_zipWith, hc, hd, hiv]
    refine ⟨?_, ?_, ?_, ?_⟩
    · rintro x rfl hx rfl
      rw [hout]
      simp [npGtC, npEq, hx]
    · rintro x rfl hx
      rw [hout]
      simp [npGtC, not_lt.mpr hx]
    · rintro rfl
      rw [hout]
      simp [npGtC]
    · intro hne
      rw [hout]
      rcases iv with _ | y
      · simp [npEq]
      · have : ¬ y = 1 := fun h => hne (by rw [h])
        simp [npEq, this]

/-- C6 witness: the wrap at 179 versus -179 degrees and a concrete filtered
pixel (over ice, wrapped difference 30), from the theorem. -/
theorem directional_filter_wrap_and_mask_witness :
    (flowDiffArr [some (179 : ℚ)] [some (-179)] = [some 2]) ∧
    (dirFilterArr [some (5 : ℚ)] [some 30] [some 1])[0]? = some none := by
  have h := directional_filter_wrap_and_mask (α := ℚ)
  refine ⟨h.1, ?_⟩
  exact (h.2.2 [some 5] [some 30] [some 1] 0 (some 30) (some 5) (some 1)
    rfl rfl rfl).1 30 rfl (by norm_num) rfl

/-!
Helper lemmas about list indexing and counting.
-/

theorem zipWith_getElem?_eq {γ δ ε : Type} (f : γ → δ → ε) {a : List γ} {b : List δ}
    {i : ℕ} {x : γ} {y : δ} (ha : a[i]? = some x) (hb : b[i]? = some y) :
    (List.zipWith f a b)[i]? = some (f x y) := by
  simp [List.getElem?_zipWith, ha, hb]

theorem map_getElem?_eq {γ δ : Type} (g : γ → δ) {a : List γ} {i : ℕ} {x : γ}
    (ha : a[i]? = some x) : (a.map g)[i]? = some (g x) := by
  simp [List.getElem?_map, ha]

theorem exists_getElem?_eq {γ : Type} (l : List γ) (i : ℕ) (h : i < l.length) :
    ∃ x, l[i]? = some x :=
  ⟨l[i], List.getElem?_eq_getElem h⟩

theorem zipWith_eq_map_zip {γ δ ε : Type} (f : γ → δ → ε) (a : List γ) (b : List δ) :
    List.zipWith f a b = (a.zip b).map (fun p => f p.1 p.2) := by
  induction a generalizing b with
  | nil => simp
  | cons x xs ih =>
      cases b with
      | nil => simp
      | cons y ys => simp [ih]

/-- The comparison of any pixel with the NaN scalar is False. -/
theorem npEq_none_right (d : Val α) : npEq d none = false := by
  cases d <;> rfl

/-- The offset-mask step (lines 145-146) is the identity on the offset
array: its condition compares against NaN with numpy ==, which never
holds. -/
theorem offsetMaskArr_eq_self (dx off : List (Val α)) (h : off.length ≤ dx.length) :
    offsetMaskArr dx off = off := by
  unfold offsetMaskArr
  induction dx generalizing off with
  | nil =>
      cases off with
      | nil => rfl
      | cons o os => simp at h
  | cons d ds ih =>
      cases off with
      | nil => rfl
      | cons o os =>
          simp only [List.length_cons, Nat.add_le_add_iff_right] at h
          have hh : npWhere (npEq d none) none o = o := by
            rw [npEq_none_right]; rfl
          rw [List.zipWith_cons_cons, hh, ih os h]

/-!
Claim C2 — the coverage check (correct_fields_parts.py lines 181-188).
-/

/-- The ice-valid fraction as the spec states it: the count of non-NaN
directionally-filtered corrected dx pixels over ice, divided by the count
of ice pixels. -/
def claimIceValidFraction (ice dxCorF : List (Val α)) : α :=
  (((ice.zip dxCorF).countP (fun p => npEq p.1 (some 1) && p.2.isSome) : ℕ) : α) /
    ((ice.countP (fun v => npEq v (some 1)) : ℕ) : α)

theorem countNotNan_iceMaskedVel (ice dxCorF : List (Val α)) :
    countNotNan (iceMaskedVel ice dxCorF) =
      (ice.zip dxCorF).countP (fun p => npEq p.1 (some 1) && p.2.isSome) := by
  unfold countNotNan iceMaskedVel
  rw [zipWith_eq_map_zip, List.countP_map]
  refine List.countP_congr fun p _ => ?_
  cases h : npEq p.1 (some 1) <;> simp [npWhere, h, Function.comp]

theorem countNonzero_eq_count_one (ice : List (Val α))
    (hbin : ∀ v ∈ ice, v = some 0 ∨ v = some 1) :
    countNonzero ice = ice.countP (fun v => npEq v (some 1)) := by
  refine List.countP_congr fun v hv => ?_
  rcases hbin v hv with rfl | rfl <;>
    simp [npEq, zero_ne_one, one_ne_zero]

/-- The emission decision as pure arithmetic: not skipping is the same as
the fraction reaching one percent. -/
theorem emission_decision_arith (N D : ℕ) :
    (!(decide (N = 0) || decide ((N : α) / (D : α) < 1 / 100))) = true ↔
      1 / 100 ≤ (N : α) / (D : α) := by
  constructor
  · intro h
    simp only [Bool.not_eq_true', Bool.or_eq_false_iff, decide_eq_false_iff_not] at h
    exact not_lt.mp h.2
  · intro h
    have hNpos : N ≠ 0 := by
      intro h0
      rw [h0] at h
      simp only [Nat.cast_zero, zero_div] at h
      exact absurd h (by norm_num)
    simp only [Bool.not_eq_true', Bool.or_eq_false_iff, decide_eq_false_iff_not]
    exact ⟨hNpos, not_lt.mpr h⟩

/-- C2: for a record reaching the coverage check (offset present, output
not already existing), a corrected output is emitted if and only if the
ice-valid fraction after directional filtering is at least 0.01; a record
whose fraction is 0 or below 0.01 is skipped with no output. -/
theorem coverage_emission_iff (arctanD : α → α) (inp : CorrectInput α)
    (hout : inp.outputExists = false)
    (hbin : ∀ v ∈ inp.icemask, v = some 0 ∨ v = some 1)
    (_hpos : 0 < countNonzero inp.icemask) :
    (correct_velocity arctanD inp).isSome ↔
      1 / 100 ≤ claimIceValidFraction inp.icemask (filteredDx arctanD inp) := by
  have hskip : (correct_velocity arctanD inp).isSome =
      !(coverageSkip inp.icemask (filteredDx arctanD inp)) := by
    unfold correct_velocity
    rw [hout]
    by_cases h : coverageSkip inp.icemask (filteredDx arctanD inp) <;> simp [h]
  rw [hskip]
  have hcode : coverageSkip inp.icemask (filteredDx arctanD inp) =
      (decide (((inp.icemask.zip (filteredDx arctanD inp)).countP
          (fun p => npEq p.1 (some 1) && p.2.isSome)) = 0) ||
        decide ((((inp.icemask.zip (filteredDx arctanD inp)).countP
            (fun p => npEq p.1 (some 1) && p.2.isSome) : ℕ) : α) /
          ((inp.icemask.countP (fun v => npEq v (some 1)) : ℕ) : α) < 1 / 100)) := by
    unfold coverageSkip
    rw [countNotNan_iceMaskedVel, countNonzero_eq_count_one inp.icemask hbin]
  rw [hcode]
  unfold claimIceValidFraction
  exact emission_decision_arith _ _

/-- C2 witness: a one-pixel record over ice with full coverage is emitted,
via the theorem at ℚ. -/
theorem coverage_emission_iff_witness :
    ((CorrectInput.mk false [some 1] [some 1] none [some 1] [some 1] [none] [some 1]
        (1 : ℚ)).outputExists = false) ∧
    (0 < countNonzero [some (1 : ℚ)]) ∧
    ((correct_velocity (fun _ => 0)
        (CorrectInput.mk false [some 1] [some 1] none [some 1] [some 1] [none] [some 1]
          (1 : ℚ))).isSome ↔
      1 / 100 ≤ claimIceValidFraction [some (1 : ℚ)]
        (filteredDx (fun _ => 0)
          (CorrectInput.mk false [some 1] [some 1] none [some 1] [some 1] [none] [some 1]
            (1 : ℚ)))) := by
  refine ⟨rfl, by decide, ?_⟩
  exact coverage_emission_iff (fun _ => 0)
    (CorrectInput.mk false [some 1] [some 1] none [some 1] [some 1] [none] [some 1] (1 : ℚ))
    rfl (by decide) (by decide)

/-!
Claim C10 — NaN propagation from raw to corrected dx
(correct_fields_parts.py lines 129-150 and 179).
-/

/-- Well-formedness of a record's inputs: all rasters share the grid, so
all arrays have the dx raster's length. -/
def CorrectInput.Wf (inp : CorrectInput α) : Prop :=
  inp.dyFile.length = inp.dxFile.length ∧
  inp.dxOffset.length = inp.dxFile.length ∧
  inp.dyOffset.length = inp.dxFile.length ∧
  inp.flowdirRef.length = inp.dxFile.length ∧
  inp.icemask.length = inp.dxFile.length ∧
  (inp.maskFile.map List.length).getD inp.dxFile.length = inp.dxFile.length

instance (inp : CorrectInput α) : Decidable inp.Wf := by
  unfold CorrectInput.Wf
  infer_instance

theorem length_loadedDx (inp : CorrectInput α) (hwf : inp.Wf) :
    (loadedDx inp).length = inp.dxFile.length := by
  unfold loadedDx
  cases hm : inp.maskFile with
  | none => simp [loadArr]
  | some m =>
      have hlen : m.length = inp.dxFile.length := by
        have := hwf.2.2.2.2.2
        rw [hm] at this
        simpa using this
      simp [maskArr, loadArr, hlen]

theorem length_loadedDy (inp : CorrectInput α) (hwf : inp.Wf) :
    (loadedDy inp).length = inp.dxFile.length := by
  unfold loadedDy
  cases hm : inp.maskFile with
  | none => simp [loadArr, hwf.1]
  | some m =>
      have hlen : m.length = inp.dxFile.length := by
        have := hwf.2.2.2.2.2
        rw [hm] at this
        simpa using this
      simp [maskArr, loadArr, hlen, hwf.1]

/-- Inversion of a successful correct_velocity run: the emitted rasters are
the filtered dx and the synchronized dy. -/
theorem correct_velocity_some (arctanD : α → α) (inp : CorrectInput α)
    (out : CorrectedOutput α) (hrun : correct_velocity arctanD inp = some out) :
    out.vx = filteredDx arctanD inp ∧
      out.vy = dySyncArr (filteredDx arctanD inp) (dyCorOf inp) := by
  unfold correct_velocity at hrun
  by_cases h1 : inp.outputExists = true
  · rw [if_pos h1] at hrun
    exact absurd hrun (by simp)
  · rw [if_neg h1] at hrun
    by_cases h2 : coverageSkip inp.icemask (filteredDx arctanD inp) = true
    · rw [if_pos h2] at hrun
      exact absurd hrun (by simp)
    · rw [if_neg h2] at hrun
      simp only [Option.some.injEq] at hrun
      rw [← hrun]
      exact ⟨rfl, rfl⟩

/-- C10: a pixel whose loaded raw dx is NaN stays NaN through the offset
application and the directional filter (so in the emitted raster too), and
the preliminary offset-masking step changes no element of either offset
array, because its comparison against NaN is always false. -/
theorem raw_nan_propagates_offset_mask_noop (arctanD : α → α) (inp : CorrectInput α)
    (hwf : inp.Wf) (i : ℕ) (hi : i < inp.dxFile.length)
    (hraw : (loadedDx inp)[i]? = some none) :
    offsetMaskArr (loadedDx inp) inp.dxOffset = inp.dxOffset ∧
    offsetMaskArr (loadedDx inp) inp.dyOffset = inp.dyOffset ∧
    (filteredDx arctanD inp)[i]? = some none ∧
    (∀ out, correct_velocity arctanD inp = some out → out.vx[i]? = some none) := by
  obtain ⟨hdyf, hdxo, hdyo, hfdr, hice, hmask⟩ := hwf
  have hldx := length_loadedDx inp ⟨hdyf, hdxo, hdyo, hfdr, hice, hmask⟩
  have hldy := length_loadedDy inp ⟨hdyf, hdxo, hdyo, hfdr, hice, hmask⟩
  obtain ⟨o, ho⟩ := exists_getElem?_eq inp.dxOffset i (by omega)
  obtain ⟨oy, hoy⟩ := exists_getElem?_eq inp.dyOffset i (by omega)
  obtain ⟨ry, hry⟩ := exists_getElem?_eq (loadedDy inp) i (by omega)
  obtain ⟨rv, hrv⟩ := exists_getElem?_eq inp.flowdirRef i (by omega)
  obtain ⟨iv, hivq⟩ := exists_getElem?_eq inp.icemask i (by omega)
  have hdxcor : (dxCorOf inp)[i]? = some none := by
    unfold dxCorOf applyOffsetArr
    have hmasked : (offsetMaskArr (loadedDx inp) inp.dxOffset)[i]? = some o := by
      unfold offsetMaskArr
      rw [zipWith_getElem?_eq _ hraw ho]
      simp [npWhere, npEq_none_right]
    rw [zipWith_getElem?_eq _ hraw hmasked]
    simp [valAdd]
  have hdycor : ∃ w, (dyCorOf inp)[i]? = some w := by
    unfold dyCorOf applyOffsetArr
    have hmasked : (offsetMaskArr (loadedDx inp) inp.dyOffset)[i]? = some oy := by
      unfold offsetMaskArr
      rw [zipWith_getElem?_eq _ hraw hoy]
      simp [npWhere, npEq_none_right]
    exact ⟨_, zipWith_getElem?_eq _ hry hmasked⟩
  obtain ⟨w, hw⟩ := hdycor
  have hangle : (angleArr arctanD (dyCorOf inp) (dxCorOf inp) (loadedDx inp))[i]? =
      some none := by
    unfold angleArr
    have ha0 : (List.zipWith (fun y x => Option.map arctanD (valDiv y x))
        (dyCorOf inp) (dxCorOf inp))[i]? = some none := by
      rw [zipWith_getElem?_eq _ hw hdxcor]
      cases w <;> simp [valDiv]
    have ha1 : (List.zipWith (fun d a => npWhere (npGtC d 0) a (valAddC a 180))
        (loadedDx inp) (List.zipWith (fun y x => Option.map arctanD (valDiv y x))
          (dyCorOf inp) (dxCorOf inp)))[i]? = some none := by
      rw [zipWith_getElem?_eq _ hraw ha0]
      simp [npWhere, npGtC, valAddC, valAdd]
    rw [map_getElem?_eq _ ha1]
    simp [npWhere, npGtC, valSubC, valSub]
  have hfd : (flowDiffOf arctanD inp)[i]? = some none := by
    unfold flowDiffOf flowDiffArr
    have hd0 : (List.zipWith (fun r a => valAbs (valSub r a)) inp.flowdirRef
        (angleArr arctanD (dyCorOf inp) (dxCorOf inp) (loadedDx inp)))[i]? = some none := by
      rw [zipWith_getElem?_eq _ hrv hangle]
      cases rv <;> simp [valAbs, valSub]
    rw [map_getElem?_eq _ hd0]
    simp [npWhere, npGtC]
  have hfil : (filteredDx arctanD inp)[i]? = some none := by
    unfold filteredDx dirFilterArr
    have hzip : (List.zipWith Prod.mk (flowDiffOf arctanD inp) inp.icemask)[i]? =
        some (none, iv) := zipWith_getElem?_eq _ hfd hivq
    rw [zipWith_getElem?_eq _ hdxcor hzip]
    simp [npGtC]
  refine ⟨offsetMaskArr_eq_self _ _ (by omega), offsetMaskArr_eq_self _ _ (by omega),
    hfil, ?_⟩
  intro out hrun
  rw [(correct_velocity_some arctanD inp out hrun).1]
  exact hfil

/-- C10 witness: a one-pixel record whose raw dx holds the nodata value 0,
at ℚ, via the theorem. -/
theorem raw_nan_propagates_offset_mask_noop_witness :
    ((CorrectInput.mk false [some 0] [some 1] none [some 1] [some 1] [some 1] [some 1]
        (1 : ℚ)).Wf) ∧
    ((0 : ℕ) < 1) ∧
    (loadedDx (CorrectInput.mk false [some 0] [some 1] none [some 1] [some 1] [some 1]
        [some 1] (1 : ℚ)))[0]? = some none ∧
    (filteredDx (fun _ => 0) (CorrectInput.mk false [some 0] [some 1] none [some 1]
        [some 1] [some 1] [some 1] (1 : ℚ)))[0]? = some none := by
  refine ⟨by decide, by decide, by decide, ?_⟩
  exact (raw_nan_propagates_offset_mask_noop (fun _ => 0)
    (CorrectInput.mk false [some 0] [some 1] none [some 1] [some 1] [some 1] [some 1]
      (1 : ℚ)) (by decide) 0 (by decide) (by decide)).2.2.1

/-!
Claim C1 — corrected = raw + offset / day_sep
(correct_fields_parts.py lines 148-150, 179, 196).
-/

/-- C1 (amended): for every emitted record and every pixel where the loaded
raw value and the offset are finite AND the directional filter does not
fire, the emitted corrected dx equals raw + offset / day_sep; the emitted
dy obeys the same formula at such pixels (dy additionally requires the
filtered dx to be non-NaN there, which the same hypotheses give). -/
theorem corrected_equals_raw_plus_offset_where_unfiltered (arctanD : α → α)
    (inp : CorrectInput α) (out : CorrectedOutput α)
    (hrun : correct_velocity arctanD inp = some out)
    (hday : inp.daySep ≠ 0) (i : ℕ) (d iv : Val α)
    (hfd : (flowDiffOf arctanD inp)[i]? = some d)
    (hiv : inp.icemask[i]? = some iv)
    (hkeep : (npGtC d 20 && npEq iv (some 1)) = false)
    (r o : α)
    (hraw : (loadedDx inp)[i]? = some (some r))
    (hoff : inp.dxOffset[i]? = some (some o)) :
    out.vx[i]? = some (some (r + o / inp.daySep)) ∧
    (∀ ry oy : α, (loadedDy inp)[i]? = some (some ry) → inp.dyOffset[i]? = some (some oy) →
      out.vy[i]? = some (some (ry + oy / inp.daySep))) := by
  obtain ⟨hvx, hvy⟩ := correct_velocity_some arctanD inp out hrun
  have hdxcor : (dxCorOf inp)[i]? = some (some (r + o / inp.daySep)) := by
    unfold dxCorOf applyOffsetArr
    have hmasked : (offsetMaskArr (loadedDx inp) inp.dxOffset)[i]? = some (some o) := by
      unfold offsetMaskArr
      rw [zipWith_getElem?_eq _ hraw hoff]
      simp [npWhere, npEq_none_right]
    rw [zipWith_getElem?_eq _ hraw hmasked]
    simp [valAdd, valDivC, valDiv, hday]
  have hfil : (filteredDx arctanD inp)[i]? = some (some (r + o / inp.daySep)) := by
    unfold filteredDx dirFilterArr
    have hzip : (List.zipWith Prod.mk (flowDiffOf arctanD inp) inp.icemask)[i]? =
        some (d, iv) := zipWith_getElem?_eq _ hfd hiv
    rw [zipWith_getElem?_eq _ hdxcor hzip]
    simp [hkeep]
  constructor
  · rw [hvx]; exact hfil
  · intro ry oy hry hoy
    rw [hvy]
    have hdycor : (dyCorOf inp)[i]? = some (some (ry + oy / inp.daySep)) := by
      unfold dyCorOf applyOffsetArr
      have hmasked : (offsetMaskArr (loadedDx inp) inp.dyOffset)[i]? = some (some oy) := by
        unfold offsetMaskArr
        rw [zipWith_getElem?_eq _ hraw hoy]
        simp [npWhere, npEq_none_right]
      rw [zipWith_getElem?_eq _ hry hmasked]
      simp [valAdd, valDivC, valDiv, hday]
    unfold dySyncArr
    rw [zipWith_getElem?_eq _ hfil hdycor]
    simp

/-- C1 witness: a one-pixel emitted record (day_sep 2, raw dx 2, dx offset
4, raw dy 3, dy offset 5) whose emitted values are 2 + 4/2 and 3 + 5/2,
via the theorem at ℚ. -/
theorem corrected_equals_raw_plus_offset_witness :
    correct_velocity (fun _ => 0)
      (CorrectInput.mk false [some 2] [some 3] none [some 4] [some 5] [none] [some 1]
        (2 : ℚ)) = some (CorrectedOutput.mk [some 4] [some (11 / 2)]) ∧
    (CorrectedOutput.mk [some (4 : ℚ)] [some (11 / 2)]).vx[0]? = some (some (2 + 4 / 2)) ∧
    (CorrectedOutput.mk [some (4 : ℚ)] [some (11 / 2)]).vy[0]? = some (some (3 + 5 / 2)) := by
  have hrun : correct_velocity (fun _ => 0)
      (CorrectInput.mk false [some 2] [some 3] none [some 4] [some 5] [none] [some 1]
        (2 : ℚ)) = some (CorrectedOutput.mk [some 4] [some (11 / 2)]) := by
    norm_num [correct_velocity, coverageSkip, countNonzero, countNotNan, iceMaskedVel,
      filteredDx, dirFilterArr, flowDiffOf, flowDiffArr, angleArr, dxCorOf, dyCorOf,
      applyOffsetArr, offsetMaskArr, loadedDx, loadedDy, loadArr, loadNodata, npWhere,
      npEq, npGtC, valAdd, valSub, valDiv, valDivC, valAddC, valSubC, valAbs, dySyncArr,
      Option.isNone_some, List.countP, List.countP.go]
    exact fun h => absurd h (by simp)
  have h := corrected_equals_raw_plus_offset_where_unfiltered (fun _ => 0)
    (CorrectInput.mk false [some 2] [some 3] none [some 4] [some 5] [none] [some 1]
      (2 : ℚ)) (CorrectedOutput.mk [some 4] [some (11 / 2)]) hrun (by norm_num)
    0 none (some 1) (by decide) (by decide) (by decide) 2 4 (by decide) (by decide)
  exact ⟨hrun, h.1, h.2 3 5 (by decide) (by decide)⟩

/-!
Claim C3 — the OffsetTable sample-count gate
(lib/functions.py lines 131-231, lib/config_template.py line 82, and the
pair loop of 2_get_orbital_average_offset.py lines 385-397).
-/

/-- THRESH_COUNT (lib/config_template.py line 82). -/
def THRESH_COUNT : ℕ := 5

/-- A per-orbit-pair OffsetField: the dx and dy offset rasters. -/
structure OffsetField (α : Type) where
  dx : List (Val α)
  dy : List (Val α)
deriving DecidableEq

/-- get_offset_of_orbit_pairs_from_a_priori (lib/functions.py lines 131-231)
on a fresh run (no pre-existing offset rasters): if the pair's row count in
the pair table is below the threshold, log the skip and produce nothing;
otherwise compute and persist the dx and dy offset rasters.  The raster
computation itself (median of per-record differences times day-separation)
is abstracted as `computePair` — the claim is about existence and logging,
decided entirely by this count gate. -/
def get_offset_of_orbit_pairs_from_a_priori (thresh : ℕ)
    (computePair : String → OffsetField α) (counts : String → ℕ) (pair : String) :
    Option (OffsetField α) × List LogMsg :=
  if counts pair < thresh then
    (none, [LogMsg.skippedPair pair (counts pair) thresh])
  else
    (some (computePair pair), [])

/-- The loop over all distinct orbit pairs
(2_get_orbital_average_offset.py lines 385-397), collecting the produced
OffsetFields and the log. -/
def runOffsetTable (thresh : ℕ) (computePair : String → OffsetField α)
    (counts : String → ℕ) (pairs : List String) :
    List (String × OffsetField α) × List LogMsg :=
  match pairs with
  | [] => ([], [])
  | p :: rest =>
      let step := get_offset_of_orbit_pairs_from_a_priori thresh computePair counts p
      let restRun := runOffsetTable thresh computePair counts rest
      (match step.1 with
        | some f => (p, f) :: restRun.1
        | none => restRun.1,
        step.2 ++ restRun.2)

omit [LinearOrderedField α] in
/-- C3: after OffsetTable runs (from a clean state), an OffsetField exists
for an orbit pair if and only if that pair's record count is at least the
threshold (THRESH_COUNT = 5 by default); every below-threshold pair
produces no OffsetField and is individually logged as skipped. -/
theorem offset_table_threshold_gate (thresh : ℕ) (computePair : String → OffsetField α)
    (counts : String → ℕ) (pairs : List String) (p : String) (hp : p ∈ pairs) :
    ((∃ f, (p, f) ∈ (runOffsetTable thresh computePair counts pairs).1) ↔
      thresh ≤ counts p) ∧
    (counts p < thresh →
      LogMsg.skippedPair p (counts p) thresh ∈
        (runOffsetTable thresh computePair counts pairs).2) ∧
    THRESH_COUNT = 5 := by
  refine ⟨⟨?_, ?_⟩, ?_, rfl⟩
  · rintro ⟨f, hf⟩
    clear hp
    induction pairs with
    | nil => simp [runOffsetTable] at hf
    | cons q rest ih =>
        by_cases hq : counts q < thresh
        · simp only [runOffsetTable, get_offset_of_orbit_pairs_from_a_priori,
            if_pos hq] at hf
          exact ih hf
        · simp only [runOffsetTable, get_offset_of_orbit_pairs_from_a_priori,
            if_neg hq, List.mem_cons] at hf
          rcases hf with hf | hf
          · injection hf with h1 h2
            subst h1
            exact not_lt.mp hq
          · exact ih hf
  · intro hcount
    induction pairs with
    | nil => simp at hp
    | cons q rest ih =>
        rcases List.mem_cons.mp hp with rfl | hmem
        · have hq : ¬ counts p < thresh := not_lt.mpr hcount
          refine ⟨computePair p, ?_⟩
          simp [runOffsetTable, get_offset_of_orbit_pairs_from_a_priori, if_neg hq]
        · obtain ⟨f, hf⟩ := ih hmem
          refine ⟨f, ?_⟩
          by_cases hq : counts q < thresh <;>
            simp [runOffsetTable, get_offset_of_orbit_pairs_from_a_priori, hq, hf]
  · intro hcount
    induction pairs with
    | nil => simp at hp
    | cons q rest ih =>
        rcases List.mem_cons.mp hp with rfl | hmem
        · simp [runOffsetTable, get_offset_of_orbit_pairs_from_a_priori, if_pos hcount]
        · by_cases hq : counts q < thresh <;>
            simp [runOffsetTable, get_offset_of_orbit_pairs_from_a_priori, hq, ih hmem]

/-- C3 witness: two orbit pairs at the default threshold 5 — one with 5
records (offset produced), decided by the theorem at ℚ. -/
theorem offset_table_threshold_gate_witness :
    ("R096_R053" ∈ ["R096_R053", "R104_R061"]) ∧
    ((∃ f, ("R096_R053", f) ∈
        (runOffsetTable THRESH_COUNT (fun _ => OffsetField.mk ([] : List (Val ℚ)) [])
          (fun p => if p = "R096_R053" then 5 else 3)
          ["R096_R053", "R104_R061"]).1) ↔
      THRESH_COUNT ≤ (fun p : String => if p = "R096_R053" then 5 else 3) "R096_R053") := by
  refine ⟨by simp, ?_⟩
  exact (offset_table_threshold_gate THRESH_COUNT
    (fun _ => OffsetField.mk ([] : List (Val ℚ)) [])
    (fun p => if p = "R096_R053" then 5 else 3)
    ["R096_R053", "R104_R061"] "R096_R053" (by simp)).1

/-!
Claim C8 — idempotence of ReferenceField construction
(lib/functions.py lines 42-94 and
2_get_orbital_average_offset.py lines 329-331).
-/

/-- A file system: path to file content, `none` when the file is absent. -/
def FS (β : Type) := String → Option β

/-- get_median_field_of_arrays_from_df (lib/functions.py lines 42-94) as an
input/output trace: the triple is (file system after the call, raster paths
opened from the repeat-track stack, returned array).  The existence guard
(lines 63-68) returns before any stack raster is opened. -/
def get_median_field_of_arrays_from_df (fs : FS β) (outFpath : String)
    (stackFpaths : List String) (compute : List (Option β) → β) :
    FS β × List String × Option β :=
  if (fs outFpath).isSome then (fs, [], none)
  else
    let result := compute (stackFpaths.map fs)
    (fun p => if p = outFpath then some result else fs p, stackFpaths, some result)

/-- The ReferenceField block of 2_get_orbital_average_offset.py (lines
329-369): the whole block is guarded by the existence of the persisted dy
median raster; `build` abstracts the construction body (three median
computations and the flow-direction raster).  The second component is the
list of stack rasters opened. -/
def referenceFieldBlock (fs : FS β) (medianDyFpath : String)
    (build : FS β → FS β × List String) : FS β × List String :=
  if (fs medianDyFpath).isSome then (fs, []) else build fs

/-- C8: invoking ReferenceField construction when the persisted median
output already exists leaves every file unchanged (so the output is
byte-for-byte intact) and opens no raster of the repeat-track stack: both
the function-level guard and the script-level guard return first. -/
theorem median_field_existing_output_idempotent (fs : FS β) (outFpath : String)
    (stackFpaths : List String) (compute : List (Option β) → β)
    (medianDyFpath : String) (build : FS β → FS β × List String)
    (hout : (fs outFpath).isSome = true)
    (hdy : (fs medianDyFpath).isSome = true) :
    (get_median_field_of_arrays_from_df fs outFpath stackFpaths compute).1 = fs ∧
    (get_median_field_of_arrays_from_df fs outFpath stackFpaths compute).2.1 = [] ∧
    referenceFieldBlock fs medianDyFpath build = (fs, []) := by
  unfold get_median_field_of_arrays_from_df referenceFieldBlock
  rw [if_pos hout, if_pos hdy]
  exact ⟨rfl, rfl, rfl⟩

/-- C8 witness: a file system holding the persisted outputs, via the
theorem at a concrete content type. -/
theorem median_field_existing_output_idempotent_witness :
    ((fun p => if p = "median_dmag" ∨ p = "median_dy" then some 0 else none :
        FS ℕ) "median_dmag").isSome = true ∧
    (get_median_field_of_arrays_from_df
      (fun p => if p = "median_dmag" ∨ p = "median_dy" then some 0 else none : FS ℕ)
      "median_dmag" ["stack_a", "stack_b"] (fun _ => 0)).2.1 = [] := by
  refine ⟨by simp, ?_⟩
  exact (median_field_existing_output_idempotent
    (fun p => if p = "median_dmag" ∨ p = "median_dy" then some 0 else none : FS ℕ)
    "median_dmag" ["stack_a", "stack_b"] (fun _ => 0) "median_dy"
    (fun fs => (fs, [])) (by simp) (by simp)).2.1

/-!
Claim C7 — flow-direction formula and range
(lib/functions.py lines 116-120 and correct_fields_parts.py lines 171-175).
-/

/-- np.degrees(np.arctan x): the arctangent in degrees. -/
noncomputable def arctanDeg (x : ℝ) : ℝ := Real.arctan x * (180 / Real.pi)

theorem arctanDeg_bounds (x : ℝ) : -90 < arctanDeg x ∧ arctanDeg x < 90 := by
  have hpos : (0 : ℝ) < 180 / Real.pi := by positivity
  have hub := mul_lt_mul_of_pos_right (Real.arctan_lt_pi_div_two x) hpos
  have hlb := mul_lt_mul_of_pos_right (Real.neg_pi_div_two_lt_arctan x) hpos
  have hval : Real.pi / 2 * (180 / Real.pi) = 90 := by
    field_simp
    ring
  have hnegval : -(Real.pi / 2) * (180 / Real.pi) = -90 := by
    rw [neg_mul, hval]
  unfold arctanDeg
  constructor
  · rw [hnegval] at hlb
    exact hlb
  · rw [hval] at hub
    exact hub

theorem arctanDeg_one : arctanDeg 1 = 45 := by
  unfold arctanDeg
  rw [Real.arctan_one]
  field_simp
  ring

theorem arctanDeg_neg_one : arctanDeg (-1) = -45 := by
  unfold arctanDeg
  rw [show ((-1 : ℝ)) = -(1 : ℝ) by norm_num, Real.arctan_neg, Real.arctan_one]
  field_simp
  ring

theorem arctanDeg_zero : arctanDeg 0 = 0 := by
  unfold arctanDeg
  rw [Real.arctan_zero, zero_mul]

/-- The flow-direction pixel of the reference field
(generate_flow_direction_tif, lib/functions.py lines 118-120). -/
noncomputable def flowdir_pixel (dx dy : Val ℝ) : Val ℝ :=
  let a0 := Option.map arctanDeg (valDiv dy dx)
  let a1 := npWhere (npGtC dx 0) a0 (valAddC a0 180)
  npWhere (npGtC a1 180) (valSubC a1 360) a1

/-- The corrected-field flow-direction pixel (correct_fields_parts.py lines
172-175): the arctangent uses the corrected components, but the quadrant
shift tests the RAW loaded dx. -/
noncomputable def corrected_flowdir_pixel (dxRaw dxCor dyCor : Val ℝ) : Val ℝ :=
  let a0 := Option.map arctanDeg (valDiv dyCor dxCor)
  let a1 := npWhere (npGtC dxRaw 0) a0 (valAddC a0 180)
  npWhere (npGtC a1 180) (valSubC a1 360) a1

/-- Modelled from the spec: angle is atan(dy/dx) in degrees, shifted by 180
degrees where dx is nonpositive — the SAME dx as in the quotient — then
wrapped into the interval from -180 exclusive to 180 inclusive.  This is
the formula the claim asserts for every flow-direction raster, stated for
finite pixels. -/
noncomputable def claim_flowdir_pixel (dx dy : Val ℝ) : Val ℝ :=
  match dx, dy with
  | some x, some y =>
      let a0 := arctanDeg (y / x)
      let a1 := if x ≤ 0 then a0 + 180 else a0
      some (if 180 < a1 then a1 - 360 else a1)
  | _, _ => none

/-- Range of the shift-and-wrap tail shared by both flow-direction
computations: whatever the shift condition, a finite result lies in
the interval from -180 exclusive to 180 inclusive. -/
theorem shiftWrap_range (c : Bool) (t a : ℝ) (ht1 : -90 < t) (ht2 : t < 90)
    (h : npWhere (npGtC (npWhere c (some t) (valAddC (some t) 180)) 180)
        (valSubC (npWhere c (some t) (valAddC (some t) 180)) 360)
        (npWhere c (some t) (valAddC (some t) 180)) = some a) :
    -180 < a ∧ a ≤ 180 := by
  cases c with
  | true =>
      rw [npWhere_true] at h
      have h2 : npGtC (some t) 180 = false := by
        simp only [npGtC, decide_eq_false_iff_not]
        linarith
      rw [h2, npWhere_false] at h
      injection h with ha
      constructor <;> linarith
  | false =>
      rw [npWhere_false] at h
      have ha1 : valAddC (some t) 180 = some (t + 180) := rfl
      rw [ha1] at h
      by_cases h180 : 180 < t + 180
      · have h2 : npGtC (some (t + 180)) 180 = true := by
          simp only [npGtC, decide_eq_true_eq]
          linarith
        rw [h2, npWhere_true] at h
        have hs : valSubC (some (t + 180)) 360 = some (t + 180 - 360) := rfl
        rw [hs] at h
        injection h with ha
        constructor <;> linarith
      · have h2 : npGtC (some (t + 180)) 180 = false := by
          simp only [npGtC, decide_eq_false_iff_not]
          exact h180
        rw [h2, npWhere_false] at h
        injection h with ha
        constructor <;> linarith

/-- A NaN quotient makes the whole shift-and-wrap tail NaN. -/
theorem shiftWrap_none (c : Bool) :
    npWhere (npGtC (npWhere c (none : Val ℝ) (valAddC none 180)) 180)
        (valSubC (npWhere c (none : Val ℝ) (valAddC none 180)) 360)
        (npWhere c (none : Val ℝ) (valAddC none 180)) = none := by
  cases c <;> rfl

/-- C7 (amended): the reference-field flow angle follows the claimed
formula (atan(dy/dx) in degrees, shifted where that same dx is nonpositive,
wrapped) at every finite pixel with dx nonzero; the corrected-field flow
angle instead tests the RAW loaded dx in the shift; every finite output of
either computation lies strictly above -180 and at most 180; and the
pipeline's angle stage computes exactly the corrected-field pixel
formula. -/
theorem flowdir_formula_and_range :
    (∀ x y : ℝ, x ≠ 0 →
      flowdir_pixel (some x) (some y) = claim_flowdir_pixel (some x) (some y)) ∧
    (∀ dx dy : Val ℝ, ∀ a : ℝ, flowdir_pixel dx dy = some a → -180 < a ∧ a ≤ 180) ∧
    (∀ dxRaw dxCor dyCor : Val ℝ, ∀ a : ℝ,
      corrected_flowdir_pixel dxRaw dxCor dyCor = some a → -180 < a ∧ a ≤ 180) ∧
    (∀ (dyCor dxCor dxRaw : List (Val ℝ)) (i : ℕ) (yv xv rv : Val ℝ),
      dyCor[i]? = some yv → dxCor[i]? = some xv → dxRaw[i]? = some rv →
      (angleArr arctanDeg dyCor dxCor dxRaw)[i]? =
        some (corrected_flowdir_pixel rv xv yv)) := by
  refine ⟨?_, ?_, ?_, ?_⟩
  · intro x y hx
    unfold flowdir_pixel claim_flowdir_pixel
    have hdiv : valDiv (some y) (some x) = some (y / x) := by
      simp [valDiv, hx]
    rw [hdiv]
    have hmap : Option.map arctanDeg (some (y / x)) = some (arctanDeg (y / x)) := rfl
    rw [hmap]
    dsimp only
    obtain ⟨ht1, ht2⟩ := arctanDeg_bounds (y / x)
    by_cases hx0 : 0 < x
    · have h1 : npGtC (some x) 0 = true := by
        simp [npGtC, hx0]
      rw [h1, npWhere_true]
      have h2 : npGtC (some (arctanDeg (y / x))) 180 = false := by
        simp only [npGtC, decide_eq_false_iff_not]
        linarith
      rw [h2, npWhere_false, if_neg (not_le.mpr hx0),
        if_neg (show ¬ 180 < arctanDeg (y / x) by linarith)]
    · have h1 : npGtC (some x) 0 = false := by
        simp [npGtC, hx0]
      rw [h1, npWhere_false]
      have haddc : valAddC (some (arctanDeg (y / x))) 180 =
          some (arctanDeg (y / x) + 180) := rfl
      rw [haddc, if_pos (not_lt.mp hx0)]
      by_cases h180 : 180 < arctanDeg (y / x) + 180
      · have h2 : npGtC (some (arctanDeg (y / x) + 180)) 180 = true := by
          simp only [npGtC, decide_eq_true_eq]
          exact h180
        rw [h2, npWhere_true, if_pos h180]
        rfl
      · have h2 : npGtC (some (arctanDeg (y / x) + 180)) 180 = false := by
          simp only [npGtC, decide_eq_false_iff_not]
          exact h180
        rw [h2, npWhere_false, if_neg h180]
  · intro dx dy a h
    unfold flowdir_pixel at h
    cases hdiv : valDiv dy dx with
    | none =>
        rw [hdiv] at h
        have hmap : Option.map arctanDeg (none : Option ℝ) = none := rfl
        rw [hmap, shiftWrap_none (npGtC dx 0)] at h
        exact absurd h (by simp)
    | some q =>
        rw [hdiv] at h
        have hmap : Option.map arctanDeg (some q) = some (arctanDeg q) := rfl
        rw [hmap] at h
        exact shiftWrap_range (npGtC dx 0) (arctanDeg q) a
          (arctanDeg_bounds q).1 (arctanDeg_bounds q).2 h
  · intro dxRaw dxCor dyCor a h
    unfold corrected_flowdir_pixel at h
    cases hdiv : valDiv dyCor dxCor with
    | none =>
        rw [hdiv] at h
        have hmap : Option.map arctanDeg (none : Option ℝ) = none := rfl
        rw [hmap, shiftWrap_none (npGtC dxRaw 0)] at h
        exact absurd h (by simp)
    | some q =>
        rw [hdiv] at h
        have hmap : Option.map arctanDeg (some q) = some (arctanDeg q) := rfl
        rw [hmap] at h
        exact shiftWrap_range (npGtC dxRaw 0) (arctanDeg q) a
          (arctanDeg_bounds q).1 (arctanDeg_bounds q).2 h
  · intro dyCor dxCor dxRaw i yv xv rv hy hx hr
    unfold angleArr
    rw [map_getElem?_eq _ (zipWith_getElem?_eq _ hr (zipWith_getElem?_eq _ hy hx))]
    rfl

/-- C7 witness: the pixel dx = 1, dy = 0, whose angle is 0 under both the
code and the claimed formula, and its range, via the theorem. -/
theorem flowdir_formula_and_range_witness :
    ((1 : ℝ) ≠ 0) ∧
    flowdir_pixel (some 1) (some 0) = claim_flowdir_pixel (some 1) (some 0) ∧
    flowdir_pixel (some 1) (some 0) = some 0 ∧
    (-180 < (0 : ℝ) ∧ (0 : ℝ) ≤ 180) := by
  have hval : flowdir_pixel (some 1) (some 0) = some 0 := by
    norm_num [flowdir_pixel, valDiv, arctanDeg_zero, npGtC, npWhere, valAddC, valAdd,
      valSubC, valSub]
  have h := flowdir_formula_and_range
  exact ⟨by norm_num, h.1 1 0 (by norm_num), hval, h.2.1 (some 1) (some 0) 0 hval⟩

/-- C7 counterexample: at a pixel with raw dx = 1, corrected dx = -1 and
corrected dy = 1, the code computes the corrected-field angle -45 (no
shift, since the RAW dx is positive), while the claimed formula — the
shift tests the dx inside the arctangent — yields 135. -/
theorem flowdir_shift_counterexample :
    corrected_flowdir_pixel (some 1) (some (-1)) (some 1) = some (-45) ∧
    claim_flowdir_pixel (some (-1)) (some 1) = some 135 ∧
    ((-45 : ℝ)) ≠ 135 := by
  have hq : (1 : ℝ) / (-1) = -1 := by norm_num
  refine ⟨?_, ?_, by norm_num⟩
  · norm_num [corrected_flowdir_pixel, valDiv, hq, arctanDeg_neg_one, npGtC, npWhere,
      valAddC, valAdd, valSubC, valSub]
  · norm_num [claim_flowdir_pixel, hq, arctanDeg_neg_one]

/-!
Claim C1 counterexample input: a two-pixel record, both pixels over ice
with finite raw dx and finite offsets; pixel 1 fails the directional
filter (reference angle 179, corrected angle 45), pixel 0 passes the
coverage check for it. -/

noncomputable def cexInput : CorrectInput ℝ :=
  CorrectInput.mk false [some 1, some 1] [some 0, some 1] none [some 0, some 0]
    [some 0, some 0] [some 179, some 179] [some 1, some 1] 1

/-- C1 counterexample: in the emitted record, pixel 1 has finite loaded raw
dx (1) and finite dx offset (0), yet the emitted corrected dx there is NaN
— the directional filter fired — which is not raw + offset / day_sep. -/
theorem emitted_pixel_filtered_counterexample :
    (loadedDx cexInput)[1]? = some (some 1) ∧
    cexInput.dxOffset[1]? = some (some 0) ∧
    correct_velocity arctanDeg cexInput =
      some (CorrectedOutput.mk [some 1, none] [none, none]) ∧
    (CorrectedOutput.mk [some (1 : ℝ), none] [none, none]).vx[1]? = some none ∧
    (some (none : Val ℝ)) ≠ some (some (1 + 0 / cexInput.daySep)) := by
  refine ⟨?_, ?_, ?_, rfl, by simp⟩
  · norm_num [cexInput, loadedDx, loadArr, loadNodata]
  · norm_num [cexInput]
  · norm_num [correct_velocity, coverageSkip, countNonzero, countNotNan, iceMaskedVel,
      filteredDx, dirFilterArr, flowDiffOf, flowDiffArr, angleArr, dxCorOf, dyCorOf,
      applyOffsetArr, offsetMaskArr, loadedDx, loadedDy, loadArr, loadNodata, npWhere,
      npEq, npGtC, valAdd, valSub, valDiv, valDivC, valAddC, valSubC, valAbs, dySyncArr,
      Option.isNone_some, List.countP, List.countP.go, cexInput, arctanDeg_one]

/-!
Claim C9 — correct_velocity leaves its shared inputs unchanged
(correct_fields_parts.py lines 60-228 and the loop of
3_correct_fields.py lines 196-225).

To make mutation observable, correct_velocity is restated over an explicit
array heap: a numpy array is a heap cell, a plain assignment of an
expression result (np.where, arithmetic) allocates a fresh cell for the
local name, and a fancy-index assignment `a[mask] = v` (lines 141-142, 179,
196) mutates the named cell in place.  The shared inputs — the two offset
arrays, the reference flow direction, and the rock and ice masks — are
passed as references into the pre-existing heap.
-/

/-- An array heap: numpy arrays addressed by reference. -/
abbrev Heap (α : Type) := List (List (Val α))

/-- Read the array at a reference (out-of-range reads give the empty
array; the program only reads live references). -/
def hget (h : Heap α) (r : ℕ) : List (Val α) := (h[r]?).getD []

omit [LinearOrderedField α] in
theorem hget_append_lt (h : Heap α) (a : List (Val α)) (r : ℕ) (hr : r < h.length) :
    hget (h ++ [a]) r = hget h r := by
  unfold hget
  rw [List.getElem?_append, if_pos hr]

omit [LinearOrderedField α] in
theorem hget_set_ne (h : Heap α) (j : ℕ) (a : List (Val α)) (r : ℕ) (hne : j ≠ r) :
    hget (h.set j a) r = hget h r := by
  unfold hget
  rw [List.getElem?_set_ne hne]

/-- correct_velocity over the array heap.  Fresh allocations append at the
end of the heap; in-place mutations use List.set at the allocated
reference.  generate_metadata (line 155) only reads the rock mask through
np.where and nan-statistics, allocating fresh arrays — it mutates nothing —
so it appears here as a read.  The result pairs the final heap with the
references of the emitted rasters (`none` when the record is skipped by
the coverage check). -/
def correct_velocity_heap (arctanD : α → α) (h0 : Heap α)
    (dxOffR dyOffR flowR rockR iceR : ℕ) (dxFile dyFile : List (Val α))
    (maskFile : Option (List (Val α))) (daySep : α) : Heap α × Option (ℕ × ℕ) :=
  -- lines 130-133: load dx and dy into fresh arrays
  let dxR := h0.length
  let h1 := h0 ++ [loadArr dxFile]
  let dyR := h1.length
  let h2 := h1 ++ [loadArr dyFile]
  -- lines 137-142: the optional validity mask mutates dx and dy in place
  let h3 := match maskFile with
    | some m => (h2.set dxR (maskArr (hget h2 dxR) m)).set dyR (maskArr (hget h2 dyR) m)
    | none => h2
  -- lines 145-146: np.where results rebind the offset names to fresh arrays
  let dxOffR2 := h3.length
  let h4 := h3 ++ [offsetMaskArr (hget h3 dxR) (hget h3 dxOffR)]
  let dyOffR2 := h4.length
  let h5 := h4 ++ [offsetMaskArr (hget h4 dxR) (hget h4 dyOffR)]
  -- lines 149-150: the corrected components are fresh arrays
  let dxCorR := h5.length
  let h6 := h5 ++ [applyOffsetArr (hget h5 dxR) (hget h5 dxOffR2) daySep]
  let dyCorR := h6.length
  let h7 := h6 ++ [applyOffsetArr (hget h6 dyR) (hget h6 dyOffR2) daySep]
  -- line 155: generate_metadata reads the rock mask
  let _rockRead := hget h7 rockR
  -- lines 171-179: the directional filter mutates dx_cor in place
  let fd := flowDiffArr (hget h7 flowR)
    (angleArr arctanD (hget h7 dyCorR) (hget h7 dxCorR) (hget h7 dxR))
  let h8 := h7.set dxCorR (dirFilterArr (hget h7 dxCorR) fd (hget h7 iceR))
  -- lines 181-188: the coverage check
  if coverageSkip (hget h8 iceR) (hget h8 dxCorR) then (h8, none)
  else
    -- line 196: dy_cor is mutated in place, then both rasters are emitted
    let h9 := h8.set dyCorR (dySyncArr (hget h8 dxCorR) (hget h8 dyCorR))
    (h9, some (dxCorR, dyCorR))

/-- Every heap cell that existed before the call is untouched: allocations
only append, and the three in-place mutations target cells the call itself
allocated. -/
theorem correct_velocity_heap_preserves (arctanD : α → α) (h0 : Heap α)
    (dxOffR dyOffR flowR rockR iceR : ℕ) (dxFile dyFile : List (Val α))
    (maskFile : Option (List (Val α))) (daySep : α) (r : ℕ) (hr : r < h0.length) :
    hget (correct_velocity_heap arctanD h0 dxOffR dyOffR flowR rockR iceR
      dxFile dyFile maskFile daySep).1 r = hget h0 r := by
  unfold correct_velocity_heap
  cases maskFile with
  | none =>
      dsimp only
      split
      · rw [hget_set_ne, hget_append_lt, hget_append_lt, hget_append_lt, hget_append_lt,
          hget_append_lt, hget_append_lt]
        all_goals try simp only [List.length_append, List.length_set, List.length_singleton]
        all_goals omega
      · dsimp only
        rw [hget_set_ne, hget_set_ne, hget_append_lt, hget_append_lt, hget_append_lt,
          hget_append_lt, hget_append_lt, hget_append_lt]
        all_goals try simp only [List.length_append, List.length_set, List.length_singleton]
        all_goals omega
  | some m =>
      dsimp only
      split
      · rw [hget_set_ne, hget_append_lt, hget_append_lt, hget_append_lt, hget_append_lt,
          hget_set_ne, hget_set_ne, hget_append_lt, hget_append_lt]
        all_goals try simp only [List.length_append, List.length_set, List.length_singleton]
        all_goals omega
      · dsimp only
        rw [hget_set_ne, hget_set_ne, hget_append_lt, hget_append_lt, hget_append_lt,
          hget_append_lt, hget_set_ne, hget_set_ne, hget_append_lt, hget_append_lt]
        all_goals try simp only [List.length_append, List.length_set, List.length_singleton]
        all_goals omega

/-- C9: after correct_velocity returns for a record, the per-orbit-pair dx
and dy offset arrays, the reference flow-direction array, and the rock and
ice mask arrays are element-for-element unchanged — correcting one record
only reads the shared inputs. -/
theorem correct_velocity_shared_inputs_unchanged (arctanD : α → α) (h0 : Heap α)
    (dxOffR dyOffR flowR rockR iceR : ℕ) (dxFile dyFile : List (Val α))
    (maskFile : Option (List (Val α))) (daySep : α)
    (h1 : dxOffR < h0.length) (h2 : dyOffR < h0.length) (h3 : flowR < h0.length)
    (h4 : rockR < h0.length) (h5 : iceR < h0.length) :
    hget (correct_velocity_heap arctanD h0 dxOffR dyOffR flowR rockR iceR
        dxFile dyFile maskFile daySep).1 dxOffR = hget h0 dxOffR ∧
    hget (correct_velocity_heap arctanD h0 dxOffR dyOffR flowR rockR iceR
        dxFile dyFile maskFile daySep).1 dyOffR = hget h0 dyOffR ∧
    hget (correct_velocity_heap arctanD h0 dxOffR dyOffR flowR rockR iceR
        dxFile dyFile maskFile daySep).1 flowR = hget h0 flowR ∧
    hget (correct_velocity_heap arctanD h0 dxOffR dyOffR flowR rockR iceR
        dxFile dyFile maskFile daySep).1 rockR = hget h0 rockR ∧
    hget (correct_velocity_heap arctanD h0 dxOffR dyOffR flowR rockR iceR
        dxFile dyFile maskFile daySep).1 iceR = hget h0 iceR :=
  ⟨correct_velocity_heap_preserves arctanD h0 dxOffR dyOffR flowR rockR iceR dxFile
      dyFile maskFile daySep dxOffR h1,
    correct_velocity_heap_preserves arctanD h0 dxOffR dyOffR flowR rockR iceR dxFile
      dyFile maskFile daySep dyOffR h2,
    correct_velocity_heap_preserves arctanD h0 dxOffR dyOffR flowR rockR iceR dxFile
      dyFile maskFile daySep flowR h3,
    correct_velocity_heap_preserves arctanD h0 dxOffR dyOffR flowR rockR iceR dxFile
      dyFile maskFile daySep rockR h4,
    correct_velocity_heap_preserves arctanD h0 dxOffR dyOffR flowR rockR iceR dxFile
      dyFile maskFile daySep iceR h5⟩

/-- C9 witness: a five-cell heap (dx offset, dy offset, reference flow
direction, rock mask, ice mask), a one-pixel record, via the theorem at ℚ. -/
theorem correct_velocity_shared_inputs_unchanged_witness :
    ((0 : ℕ) < 5 ∧ (1 : ℕ) < 5 ∧ (2 : ℕ) < 5 ∧ (3 : ℕ) < 5 ∧ (4 : ℕ) < 5) ∧
    hget (correct_velocity_heap (fun _ => (0 : ℚ))
        [[some 1], [some 2], [some 3], [some 4], [some 5]] 0 1 2 3 4
        [some 6] [some 7] none 1).1 0 = hget [[some (1 : ℚ)], [some 2], [some 3],
          [some 4], [some 5]] 0 := by
  refine ⟨by decide, ?_⟩
  exact (correct_velocity_shared_inputs_unchanged (fun _ => (0 : ℚ))
    [[some 1], [some 2], [some 3], [some 4], [some 5]] 0 1 2 3 4 [some 6] [some 7]
    none 1 (by decide) (by decide) (by decide) (by decide) (by decide)).1

end GlacierFlow
